import Mathlib

/-!
Shallow embedding of the stage-resolution and random-stage-multiplexer core of
the SuperMario repository (`gym_super_mario_bros`).  Python dynamic values are
modelled by the inductive `Val`; Python exceptions by `PyErr`; fallible code
returns `Except PyErr _`.  The single-stage environment (`SuperMarioBrosEnv`)
is an external collaborator: its per-instance behaviour is abstracted, while
every control decision made by the code under `src/` is translated literally.
-/

/-- Python exception classes raised by the embedded code. -/
inductive PyErr where
  | typeError (msg : String)
  | valueError (msg : String)
  | keyError (msg : String)
  | indexError (msg : String)
  | assertError (msg : String)
deriving DecidableEq, Repr

/-- A fragment of Python's dynamic values, enough for the validated inputs. -/
inductive Val where
  | none
  | int (n : Int)
  | float
  | str (s : String)
  | bool (b : Bool)
  | tuple (xs : List Val)
  | list (xs : List Val)
  | set (xs : List Val)

/-- Python's `type(v).__name__` for the modelled values. -/
def typeName : Val → String
  | .none => "NoneType"
  | .int _ => "int"
  | .float => "float"
  | .str _ => "str"
  | .bool _ => "bool"
  | .tuple _ => "tuple"
  | .list _ => "list"
  | .set _ => "set"

/-- Python's `isinstance(v, bool)`. -/
def isInstBool : Val → Bool
  | .bool _ => true
  | _ => false

/-- Python's `isinstance(v, int)`: in Python a `bool` is an instance of `int`. -/
def isInstInt : Val → Bool
  | .int _ => true
  | .bool _ => true
  | _ => false

/-- The integer value of an `int`-instance (Python's `True == 1`, `False == 0`). -/
def intVal : Val → Int
  | .int n => n
  | .bool b => if b then 1 else 0
  | _ => 0

/-- Python's `isinstance(v, (tuple, list))`, exposing the elements. -/
def asSeq : Val → Option (List Val)
  | .tuple xs => some xs
  | .list xs => some xs
  | _ => Option.none

/-- Python's `isinstance(v, (set, list, tuple))`, exposing the elements. -/
def asCollection : Val → Option (List Val)
  | .tuple xs => some xs
  | .list xs => some xs
  | .set xs => some xs
  | _ => Option.none

/-- Shallow `repr` of a leaf value, used inside error messages. -/
def reprAtom : Val → String
  | .none => "None"
  | .int n => toString n
  | .float => "<float>"
  | .str s => s
  | .bool b => if b then "True" else "False"
  | .tuple _ => "<tuple>"
  | .list _ => "<list>"
  | .set _ => "<set>"

/-- Shallow `repr` of a value one level deep, used inside error messages. -/
def reprVal : Val → String
  | .tuple xs => "(" ++ String.intercalate ", " (xs.map reprAtom) ++ ")"
  | .list xs => "[" ++ String.intercalate ", " (xs.map reprAtom) ++ "]"
  | v => reprAtom v

/-- The world/stage phase of `decode_target`, entered once `target` is a
2-element sequence `[wv, sv]` and `lost_levels` the bool `ll`: the remaining
type checks, range checks, and the area arithmetic of the source. -/
def decodeWorldStage (wv sv : Val) (ll : Bool) :
    Except PyErr (Option (Int × Int × Int)) :=
  if !isInstInt wv then
    .error (.typeError "target_world must be of type: int")
  else
    let target_world := intVal wv
    if ll ∧ ¬(1 ≤ target_world ∧ target_world ≤ 12) then
      .error (.valueError "target_world must be in (1, ..., 12)")
    else if ¬ll ∧ ¬(1 ≤ target_world ∧ target_world ≤ 8) then
      .error (.valueError "target_world must be in (1, ..., 8)")
    else if !isInstInt sv then
      .error (.typeError "target_stage must be of type: int")
    else
      let target_stage := intVal sv
      if ¬(1 ≤ target_stage ∧ target_stage ≤ 4) then
        .error (.valueError "target_stage must be in (1, ..., 4)")
      else
        let target_area := target_stage
        if ll then
          if target_world = 1 ∨ target_world = 3 then
            if target_stage ≥ 2 then
              .ok (some (target_world, target_stage, target_area + 1))
            else
              .ok (some (target_world, target_stage, target_area))
          else if target_world ≥ 5 then
            .error (.valueError "lost levels worlds (5, ..., 12) not supported")
          else
            .ok (some (target_world, target_stage, target_area))
        else
          if target_world = 1 ∨ target_world = 2 ∨ target_world = 4 ∨ target_world = 7 then
            if target_stage ≥ 2 then
              .ok (some (target_world, target_stage, target_area + 1))
            else
              .ok (some (target_world, target_stage, target_area))
          else
            .ok (some (target_world, target_stage, target_area))

/-- The function `decode_target` from `src/gym_super_mario_bros/_roms/decode_target.py`,
translated check for check.  `ok Option.none` models the sentinel return
`(None, None, None)`; `ok (some (w, s, a))` models the return `(w, s, a)`. -/
def decode_target (target : Val) (lost_levels : Val) :
    Except PyErr (Option (Int × Int × Int)) :=
  match lost_levels with
  | .bool ll =>
    match target with
    | .none => .ok Option.none
    | _ =>
      match asSeq target with
      | Option.none =>
          .error (.typeError ("target argument must be of type tuple. Got: " ++
            typeName target ++ "."))
      | some xs =>
        match xs with
        | [wv, sv] => decodeWorldStage wv sv ll
        | _ =>
            .error (.valueError
              ("target argument must contain exactly two integers. Got length: " ++
                toString xs.length))
  | _ =>
      .error (.typeError ("lost_levels argument must be of type: bool. Got: " ++
        typeName lost_levels))

/-- Wrap two integers as the Python tuple `(w, s)`. -/
def pairVal (w s : Int) : Val := .tuple [.int w, .int s]

/-- Is the result a `ValueError`? -/
def isValueErrorR {α : Type} : Except PyErr α → Bool
  | .error (.valueError _) => true
  | _ => false

/-- Is the result a `TypeError`? -/
def isTypeErrorR {α : Type} : Except PyErr α → Bool
  | .error (.typeError _) => true
  | _ => false

/-- Is the result a `KeyError`? -/
def isKeyErrorR {α : Type} : Except PyErr α → Bool
  | .error (.keyError _) => true
  | _ => false

/-- Is the result an `AssertionError`? -/
def isAssertErrorR {α : Type} : Except PyErr α → Bool
  | .error (.assertError _) => true
  | _ => false

/-- The enum `SuperMarioBrosRandomMode` from `src/gym_super_mario_bros/enums.py`. -/
inductive SuperMarioBrosRandomMode where
  | SMB_ONLY
  | LOST_LEVELS_ONLY
  | BOTH
deriving DecidableEq, Repr

namespace SuperMarioBrosRandomMode

/-- Property `has_smb`: the mode is in `{SMB_ONLY, BOTH}`. -/
def has_smb : SuperMarioBrosRandomMode → Bool
  | .SMB_ONLY => true
  | .BOTH => true
  | .LOST_LEVELS_ONLY => false

/-- Property `has_lost_levels`: the mode is in `{LOST_LEVELS_ONLY, BOTH}`. -/
def has_lost_levels : SuperMarioBrosRandomMode → Bool
  | .LOST_LEVELS_ONLY => true
  | .BOTH => true
  | .SMB_ONLY => false

end SuperMarioBrosRandomMode

/-- The list `SuperMarioBrosROMMode.lost_levels_values()` from `enums.py`: the ROM-mode
strings suitable for Lost Levels. -/
def lost_levels_values : List String := ["vanilla", "downsample"]

/-- The validity check of one stage group (`for j, pair in enumerate(...)` loop
of `validate_stages`): pairs must be 2-element tuples/lists of integers.
`i` is the group index, `j` the index of the next pair. -/
def validatePairs (i j : Nat) : List Val → Except PyErr Unit
  | [] => .ok ()
  | p :: rest =>
    match asSeq p with
    | Option.none =>
        .error (.typeError ("Element " ++ toString j ++ " in stage group " ++ toString i ++
          " must be a tuple or list of two integers. Got: " ++ reprVal p ++
          " of type " ++ typeName p))
    | some xs =>
      if xs.length ≠ 2 then
        .error (.valueError ("tuple " ++ toString j ++ " in stage group " ++ toString i ++
          " must contain exactly two integers. Got length: " ++ toString xs.length ++
          " - value: " ++ reprVal p))
      else if !(xs.all isInstInt) then
        .error (.typeError ("Both elements of tuple " ++ toString j ++ " in stage group " ++
          toString i ++ " must be integers. Got value: " ++ reprVal p))
      else
        validatePairs i (j + 1) rest

/-- The `for i, stage_group in enumerate(stages)` loop of `validate_stages`. -/
def validateGroups (i : Nat) : List Val → Except PyErr Unit
  | [] => .ok ()
  | g :: gs =>
    match asCollection g with
    | Option.none =>
        .error (.typeError ("Element " ++ toString i ++
          " of stages must be a set, list or tuple of int. Got type: " ++ typeName g))
    | some pairs =>
      match validatePairs i 0 pairs with
      | .ok () => validateGroups (i + 1) gs
      | .error e => .error e

/-- The function `validate_stages` from `src/gym_super_mario_bros/smb_random_stages_env.py`,
translated check for check. -/
def validate_stages (stages : Val) : Except PyErr Unit :=
  match asSeq stages with
  | Option.none =>
      .error (.typeError ("stages must be a list or tuple of two set, list or tuple of " ++
        "(int, int) pairs. Got type: " ++ typeName stages))
  | some xs =>
    if xs.length ≠ 2 then
      .error (.valueError ("stages must contain exactly two elements (one per stage type). " ++
        "Got: " ++ toString xs.length ++ " elements."))
    else
      validateGroups 0 xs

/-- A StageKey: `(lost_levels, (world, stage))`, the dictionary key used by the
random-stages environment. -/
abbrev StageKey := Bool × (Int × Int)

/-- A typed stage spec: the two collections of `(world, stage)` pairs, SMB
first, Lost Levels second (the well-typed shape `validate_stages` accepts). -/
abbrev StagesSpec := List (Int × Int) × List (Int × Int)

/-- The `Val` image of a typed stage spec, as the caller would pass it. -/
def specToVal (stages : StagesSpec) : Val :=
  .tuple [.list (stages.1.map fun p => .tuple [.int p.1, .int p.2]),
          .list (stages.2.map fun p => .tuple [.int p.1, .int p.2])]

/-- The function `flatten_stages` from `src/gym_super_mario_bros/smb_random_stages_env.py`
on a well-typed spec: extend with SMB keys when the mode has SMB, then with
Lost Levels keys when the mode has Lost Levels. -/
def flatten_stages (stages : StagesSpec) (random_mode : SuperMarioBrosRandomMode) :
    List StageKey :=
  let stage_pool : List StageKey := []
  let stage_pool := if random_mode.has_smb
    then stage_pool ++ stages.1.map (fun stage => (false, stage))
    else stage_pool
  let stage_pool := if random_mode.has_lost_levels
    then stage_pool ++ stages.2.map (fun stage => (true, stage))
    else stage_pool
  stage_pool

/-- The list `all_smb_keys` of `__init__`: `(False, (world, stage))` for world in
`range(1, 9)`, stage in `range(1, 5)`, world-major order. -/
def all_smb_keys : List StageKey :=
  ([1, 2, 3, 4, 5, 6, 7, 8] : List Int).flatMap fun world =>
    ([1, 2, 3, 4] : List Int).map fun stage => (false, (world, stage))

/-- The list `all_lost_levels_keys` of `__init__`: `(True, (world, stage))` for world in
`range(1, 5)`, stage in `range(1, 5)`, world-major order. -/
def all_lost_levels_keys : List StageKey :=
  ([1, 2, 3, 4] : List Int).flatMap fun world =>
    ([1, 2, 3, 4] : List Int).map fun stage => (true, (world, stage))

/-- The selectable key list built by `__init__`: `flatten_stages`, then the
full SMB default cross-product when the SMB collection is empty, then the full
Lost Levels default cross-product when that collection is empty. -/
def initStagePoolKeys (stages : StagesSpec) (m : SuperMarioBrosRandomMode) :
    List StageKey :=
  let pool := flatten_stages stages m
  let pool := if m.has_smb ∧ stages.1 = [] then pool ++ all_smb_keys else pool
  let pool := if m.has_lost_levels ∧ stages.2 = [] then pool ++ all_lost_levels_keys else pool
  pool

/-- The key set of the `envs` dictionary built by `__init__`: always the full
default cross-product for each variant the mode permits, independent of the
`stages` argument. -/
def initEnvKeys (m : SuperMarioBrosRandomMode) : List StageKey :=
  (if m.has_smb then all_smb_keys else []) ++
  (if m.has_lost_levels then all_lost_levels_keys else [])

-- Decidable equality of results, for evaluating concrete runs.
deriving instance DecidableEq for Except

/-- A pair value `validate_stages` accepts: a 2-element tuple/list of
Python ints. -/
def isPairOk (p : Val) : Bool :=
  match asSeq p with
  | some xs => xs.length = 2 && xs.all isInstInt
  | Option.none => false

/-- A stage group `validate_stages` accepts: a set/list/tuple of accepted
pairs. -/
def isGroupOk (g : Val) : Bool :=
  match asCollection g with
  | some ps => ps.all isPairOk
  | Option.none => false

/-- A well-typed spec: a 2-element list/tuple of accepted stage groups. -/
def wellTypedSpec (v : Val) : Bool :=
  match asSeq v with
  | some xs => xs.length = 2 && xs.all isGroupOk
  | Option.none => false

/-- An abstract model of NumPy's `default_rng` generators: a state type `Nat`,
`init` for `np.random.default_rng(seed)`, and `integers` for
`rng.integers(n)`, returning the drawn index and the advanced state.  The
`integers_lt` field is NumPy's contract that the draw lies in `[0, n)`. -/
structure RngModel where
  init : Nat → Nat
  integers : Nat → Nat → Nat × Nat
  integers_lt : ∀ s n, 0 < n → (integers s n).1 < n

/-- A concrete `RngModel` that always draws index 0 (used to instantiate
theorems about the multiplexer at concrete inputs). -/
def zeroRng : RngModel where
  init := fun s => s
  integers := fun s _ => (0, s + 1)
  integers_lt := fun _ _ h => h

/-- The state of a `SuperMarioBrosRandomStagesEnv`: its RNG state, the
selectable key list, the key set of the `envs` dictionary, the key of the
active instance (`None` once closed), and the viewer placeholder.  The pooled
single-stage instances themselves are external collaborators, identified here
by their keys. -/
structure Mux where
  random_mode : SuperMarioBrosRandomMode
  np_random : Nat
  stage_pool_keys : List StageKey
  envs : List StageKey
  env : Option StageKey
  viewer : Option Unit
deriving DecidableEq, Repr

/-- Constructor `SuperMarioBrosRandomStagesEnv.__init__` on a well-typed spec: the
rom-mode/lost-levels compatibility check, `validate_stages` (which a typed
spec always passes, see `validate_specToVal`), `flatten_stages` plus the
default cross-products, the `envs` dictionary, and the initial active-instance
lookup `self.envs[self.stage_pool_keys[0]]` (IndexError on an empty pool,
KeyError when the first key is unpooled). -/
def mkMux (rm : RngModel) (rom_mode : String) (random_mode : SuperMarioBrosRandomMode)
    (stages : StagesSpec) (entropy : Nat) : Except PyErr Mux :=
  if !(lost_levels_values.contains rom_mode) ∧ random_mode.has_lost_levels then
    .error (.valueError ("rom_mode argument must be 'vanilla' or 'downsample' if you want " ++
      "to load stages from Super Mario Bros. 2 (Lost Levels)."))
  else
    match validate_stages (specToVal stages) with
    | .error e => .error e
    | .ok () =>
      let pool := initStagePoolKeys stages random_mode
      let envKeys := initEnvKeys random_mode
      match pool with
      | [] => .error (.indexError "list index out of range")
      | k :: _ =>
        if k ∈ envKeys then
          .ok ⟨random_mode, rm.init entropy, pool, envKeys, some k, Option.none⟩
        else
          .error (.keyError ("The chosen (<world>-<stage>) <game> combination does not exists."))

/-- Method `seed` of the multiplexer: `None` leaves the generator untouched and
returns `[]`; a value replaces the generator with `default_rng(seed)` and
returns `[seed]`. -/
def Mux.seed (rm : RngModel) (m : Mux) (seed : Option Nat) : Mux × List Nat :=
  match seed with
  | Option.none => (m, [])
  | some s => ({ m with np_random := rm.init s }, [s])

/-- Method `reset` of the multiplexer.  Re-seeds, draws a key (from a freshly
validated and flattened override when `options` carries one, else from the
persistent pool), looks it up in `envs` (KeyError when absent), reassigns the
active instance and forwards; the forwarded single-stage `reset` is abstracted
to returning the chosen key.  The returned `Mux` is the post-call state (on an
error the fields already assigned keep their new values, as in Python). -/
def Mux.reset (rm : RngModel) (m : Mux) (seed : Option Nat)
    (options : Option StagesSpec) : Mux × Except PyErr StageKey :=
  let m := (m.seed rm seed).1
  let drawn : Except PyErr (Nat × StageKey) :=
    match options with
    | some stages =>
      match validate_stages (specToVal stages) with
      | .error e => .error e
      | .ok () =>
        let new_stage_pool_keys := flatten_stages stages m.random_mode
        if h : new_stage_pool_keys.length = 0 then
          .error (.valueError "You cannot provide an empty collection of levels to choose from.")
        else
          let pick := rm.integers m.np_random new_stage_pool_keys.length
          .ok (pick.2, new_stage_pool_keys.get ⟨pick.1,
            rm.integers_lt m.np_random new_stage_pool_keys.length (Nat.pos_of_ne_zero h)⟩)
    | Option.none =>
      if h : m.stage_pool_keys.length = 0 then
        .error (.valueError "low >= high")
      else
        let pick := rm.integers m.np_random m.stage_pool_keys.length
        .ok (pick.2, m.stage_pool_keys.get ⟨pick.1,
          rm.integers_lt m.np_random m.stage_pool_keys.length (Nat.pos_of_ne_zero h)⟩)
  match drawn with
  | .error e => (m, .error e)
  | .ok (rng, chosen_key) =>
    let m := { m with np_random := rng }
    if chosen_key ∈ m.envs then
      ({ m with env := some chosen_key }, .ok chosen_key)
    else
      (m, .error (.keyError ("The chosen (<world>-<stage>) <game> combination " ++
        "does not exists. Chosen: " ++ toString chosen_key.2.1 ++ "-" ++
        toString chosen_key.2.2)))
/-- Method `step` of the multiplexer: `assert self.env is not None` then forward; the
forwarded single-stage `step` is abstracted to returning the key of the
instance that serviced the call. -/
def Mux.step (m : Mux) : Except PyErr StageKey :=
  match m.env with
  | Option.none => .error (.assertError "Environment not initialized or closed.")
  | some k => .ok k

/-- Method `get_keys_to_action` of the multiplexer: same assert-then-forward shape as
`step`, abstracted to the servicing key. -/
def Mux.get_keys_to_action (m : Mux) : Except PyErr StageKey :=
  match m.env with
  | Option.none => .error (.assertError "Environment not initialized or closed.")
  | some k => .ok k

/-- Method `get_action_meanings` of the multiplexer: same assert-then-forward
shape as `step`, abstracted to the servicing key. -/
def Mux.get_action_meanings (m : Mux) : Except PyErr StageKey :=
  match m.env with
  | Option.none => .error (.assertError "Environment not initialized or closed.")
  | some k => .ok k

/-- Modelled from the spec: `render` delegates to `SuperMarioBrosEnv.render`,
whose source (`smb_env.py`) is not under `src/`; per the spec it forwards to
the active instance and fails with IllegalState when that is unset. -/
def Mux.render (m : Mux) : Except PyErr StageKey :=
  match m.env with
  | Option.none => .error (.assertError "Environment not initialized or closed.")
  | some k => .ok k

/-- The `for env in self.envs.values(): env.close()` loop of `close`, given the
close outcome `f k` of each pooled instance: the first failure propagates. -/
def closeAllLoop (f : StageKey → Except PyErr Unit) : List StageKey → Except PyErr Unit
  | [] => .ok ()
  | k :: ks =>
    match f k with
    | .ok () => closeAllLoop f ks
    | .error e => .error e

/-- The pooled instances whose `close` is actually invoked by the loop: every
instance up to and including the first failing one. -/
def closeInvoked (f : StageKey → Except PyErr Unit) : List StageKey → List StageKey
  | [] => []
  | k :: ks =>
    match f k with
    | .ok () => k :: closeInvoked f ks
    | .error _ => [k]

/-- Method `close` of the multiplexer, given the close outcome `f k` of each pooled
instance.  Already-closed: ValueError.  Otherwise run the close loop; a raised
per-instance error propagates before `self.env = None` is reached, so the
state is returned unchanged; on full success the active instance is unset and
the viewer released. -/
def Mux.close (m : Mux) (f : StageKey → Except PyErr Unit) : Mux × Except PyErr Unit :=
  match m.env with
  | Option.none => (m, .error (.valueError "env has already been closed."))
  | some _ =>
    match closeAllLoop f m.envs with
    | .error e => (m, .error e)
    | .ok () => ({ m with env := Option.none, viewer := Option.none }, .ok ())

/-- The sequence of StageKeys drawn by `n` consecutive `reset()` calls with no
seed and no options; the sequence stops early if a reset raises. -/
def drawnKeys (rm : RngModel) (m : Mux) : Nat → List StageKey
  | 0 => []
  | n + 1 =>
    match m.reset rm Option.none Option.none with
    | (m', .ok k) => k :: drawnKeys rm m' n
    | (_, .error _) => []


/-! Helper lemmas -/

theorem all_smb_keys_eq :
    all_smb_keys = [(false, (1, 1)), (false, (1, 2)), (false, (1, 3)), (false, (1, 4)), (false, (2, 1)), (false, (2, 2)), (false, (2, 3)), (false, (2, 4)), (false, (3, 1)), (false, (3, 2)), (false, (3, 3)), (false, (3, 4)), (false, (4, 1)), (false, (4, 2)), (false, (4, 3)), (false, (4, 4)), (false, (5, 1)), (false, (5, 2)), (false, (5, 3)), (false, (5, 4)), (false, (6, 1)), (false, (6, 2)), (false, (6, 3)), (false, (6, 4)), (false, (7, 1)), (false, (7, 2)), (false, (7, 3)), (false, (7, 4)), (false, (8, 1)), (false, (8, 2)), (false, (8, 3)), (false, (8, 4))] := by decide

theorem all_lost_levels_keys_eq :
    all_lost_levels_keys = [(true, (1, 1)), (true, (1, 2)), (true, (1, 3)), (true, (1, 4)), (true, (2, 1)), (true, (2, 2)), (true, (2, 3)), (true, (2, 4)), (true, (3, 1)), (true, (3, 2)), (true, (3, 3)), (true, (3, 4)), (true, (4, 1)), (true, (4, 2)), (true, (4, 3)), (true, (4, 4))] := by decide

theorem mem_all_smb_keys (b : Bool) (w s : Int) :
    (b, (w, s)) ∈ all_smb_keys ↔ b = false ∧ (1 ≤ w ∧ w ≤ 8) ∧ (1 ≤ s ∧ s ≤ 4) := by
  simp only [all_smb_keys, List.mem_flatMap, List.mem_map]
  constructor
  · rintro ⟨world, hworld, stage, hstage, heq⟩
    cases heq
    simp only [List.mem_cons, List.not_mem_nil, or_false] at hworld hstage
    refine ⟨rfl, ?_, ?_⟩ <;> constructor <;> omega
  · rintro ⟨rfl, ⟨hw1, hw2⟩, hs1, hs2⟩
    refine ⟨w, ?_, s, ?_, rfl⟩ <;> simp only [List.mem_cons, List.not_mem_nil, or_false] <;>
      omega

theorem mem_all_lost_levels_keys (b : Bool) (w s : Int) :
    (b, (w, s)) ∈ all_lost_levels_keys ↔ b = true ∧ (1 ≤ w ∧ w ≤ 4) ∧ (1 ≤ s ∧ s ≤ 4) := by
  simp only [all_lost_levels_keys, List.mem_flatMap, List.mem_map]
  constructor
  · rintro ⟨world, hworld, stage, hstage, heq⟩
    cases heq
    simp only [List.mem_cons, List.not_mem_nil, or_false] at hworld hstage
    refine ⟨rfl, ?_, ?_⟩ <;> constructor <;> omega
  · rintro ⟨rfl, ⟨hw1, hw2⟩, hs1, hs2⟩
    refine ⟨w, ?_, s, ?_, rfl⟩ <;> simp only [List.mem_cons, List.not_mem_nil, or_false] <;>
      omega

theorem validatePairs_specPairs (i j : Nat) (l : List (Int × Int)) :
    validatePairs i j (l.map fun p => Val.tuple [.int p.1, .int p.2]) = .ok () := by
  induction l generalizing j with
  | nil => rfl
  | cons p rest ih => simpa [validatePairs, asSeq, isInstInt] using ih (j + 1)

theorem validate_specToVal (stages : StagesSpec) :
    validate_stages (specToVal stages) = .ok () := by
  simp [validate_stages, specToVal, asSeq, validateGroups, asCollection,
    validatePairs_specPairs]

theorem count_map_tag (t : Bool) (l : List (Int × Int)) (p : Int × Int) :
    (l.map fun q => ((t, q) : StageKey)).count (t, p) = l.count p := by
  induction l with
  | nil => rfl
  | cons q rest ih =>
    simp only [List.map_cons, List.count_cons, ih]
    congr 1
    simp [instBEqProd, BEq.beq]

/-! Claim theorems -/

/-- C4: for every legal (world, stage, variant) input the resolver returns
`(world, stage, area)` with `area = stage + 1` exactly when `stage ≥ 2` and
the world is in `{1, 3}` for the alternate (Lost Levels) variant or in
`{1, 2, 4, 7}` for the base variant, and `area = stage` otherwise; hence
`area ∈ {stage, stage + 1}`. -/
theorem C4_decode_target_area_arithmetic (w s : Int) (ll : Bool)
    (hw1 : 1 ≤ w) (hw2 : w ≤ if ll then 4 else 8) (hs1 : 1 ≤ s) (hs2 : s ≤ 4) :
    (decode_target (pairVal w s) (.bool ll) =
      .ok (some (w, s,
        if 2 ≤ s ∧ (if ll then w = 1 ∨ w = 3 else w = 1 ∨ w = 2 ∨ w = 4 ∨ w = 7)
        then s + 1 else s))) ∧
    (∃ a, decode_target (pairVal w s) (.bool ll) = .ok (some (w, s, a)) ∧
      (a = s ∨ a = s + 1)) := by
  have h0 : decode_target (pairVal w s) (.bool ll) = decodeWorldStage (.int w) (.int s) ll :=
    rfl
  have h1 : decode_target (pairVal w s) (.bool ll) =
      .ok (some (w, s,
        if 2 ≤ s ∧ (if ll then w = 1 ∨ w = 3 else w = 1 ∨ w = 2 ∨ w = 4 ∨ w = 7)
        then s + 1 else s)) := by
    rw [h0]
    cases ll <;>
      simp only [decodeWorldStage, isInstInt, intVal, Bool.not_true, Bool.false_eq_true,
        if_false, if_true, and_true, true_and, false_and, and_false] <;>
      split_ifs <;> simp_all <;> omega
  refine ⟨h1, ⟨_, h1, ?_⟩⟩
  split_ifs <;> simp

/-- Witness for C4 at the spec's example `resolve(1, 2, base) = (1, 2, 3)`. -/
theorem C4_witness :
    decode_target (pairVal 1 2) (.bool false) = .ok (some (1, 2, 3)) := by
  have h := (C4_decode_target_area_arithmetic 1 2 false (by decide) (by decide)
    (by decide) (by decide)).1
  simpa using h

/-- C5: the resolver returns the sentinel when the target is absent; for
integer inputs it fails with ValueError (OutOfRange) when world or stage is
outside the variant's bounds (base world 1..8, alternate world 1..12,
stage 1..4) and for every alternate world ≥ 5 with a legal stage; it fails
with TypeError (InvalidArgument) when the variant flag is not a bool or
world/stage are not integers. -/
theorem C5_decode_target_failures :
    (∀ ll : Bool, decode_target .none (.bool ll) = .ok Option.none) ∧
    (∀ (w s : Int) (ll : Bool),
      (¬(1 ≤ w ∧ w ≤ if ll then 12 else 8) ∨ ¬(1 ≤ s ∧ s ≤ 4)) →
      isValueErrorR (decode_target (pairVal w s) (.bool ll)) = true) ∧
    (∀ w s : Int, 5 ≤ w → w ≤ 12 → 1 ≤ s → s ≤ 4 →
      isValueErrorR (decode_target (pairVal w s) (.bool true)) = true) ∧
    (∀ target v : Val, isInstBool v = false →
      isTypeErrorR (decode_target target v) = true) ∧
    (∀ (wv sv : Val) (ll : Bool), isInstInt wv = false →
      isTypeErrorR (decode_target (.tuple [wv, sv]) (.bool ll)) = true) ∧
    (∀ (w : Int) (sv : Val) (ll : Bool), isInstInt sv = false →
      (1 ≤ w ∧ w ≤ if ll then 12 else 8) →
      isTypeErrorR (decode_target (.tuple [.int w, sv]) (.bool ll)) = true) := by
  refine ⟨fun ll => rfl, ?_, ?_, ?_, ?_, ?_⟩
  · intro w s ll h
    have h0 : decode_target (pairVal w s) (.bool ll) = decodeWorldStage (.int w) (.int s) ll :=
      rfl
    rw [h0]
    cases ll <;>
      simp only [decodeWorldStage, isInstInt, intVal, Bool.not_true, Bool.false_eq_true,
        if_false, if_true, and_true, true_and, false_and, and_false] <;>
      split_ifs <;> simp_all [isValueErrorR]
  · intro w s hw5 hw12 hs1 hs4
    have h0 : decode_target (pairVal w s) (.bool true) =
        decodeWorldStage (.int w) (.int s) true := rfl
    rw [h0]
    simp only [decodeWorldStage, isInstInt, intVal, Bool.not_true, Bool.false_eq_true,
      if_false, if_true, and_true, true_and, false_and, and_false]
    split_ifs <;> simp_all [isValueErrorR] <;> omega
  · intro target v hv
    cases v <;> simp_all [decode_target, isInstBool, isTypeErrorR]
  · intro wv sv ll h
    have h0 : decode_target (.tuple [wv, sv]) (.bool ll) = decodeWorldStage wv sv ll := rfl
    rw [h0]
    simp [decodeWorldStage, h, isTypeErrorR]
  · intro w sv ll h hw
    have h0 : decode_target (.tuple [.int w, sv]) (.bool ll) =
        decodeWorldStage (.int w) sv ll := rfl
    rw [h0]
    unfold decodeWorldStage
    rw [h]
    cases ll <;>
      simp only [isInstInt, intVal, Bool.not_false, Bool.not_true, Bool.false_eq_true,
        if_false, if_true, and_true, true_and, false_and, and_false] <;>
      split_ifs <;> simp_all [isTypeErrorR]

/-- Witness for C5: each failing case at a concrete input, and the sentinel. -/
theorem C5_witness :
    decode_target .none (.bool false) = .ok Option.none ∧
    isValueErrorR (decode_target (pairVal 0 1) (.bool false)) = true ∧
    isValueErrorR (decode_target (pairVal 5 1) (.bool true)) = true ∧
    isTypeErrorR (decode_target (pairVal 1 1) (.int 7)) = true ∧
    isTypeErrorR (decode_target (.tuple [.float, .int 1]) (.bool false)) = true ∧
    isTypeErrorR (decode_target (.tuple [.int 1, .float]) (.bool true)) = true :=
  ⟨C5_decode_target_failures.1 false,
   C5_decode_target_failures.2.1 0 1 false (Or.inl (by decide)),
   C5_decode_target_failures.2.2.1 5 1 (by decide) (by decide) (by decide) (by decide),
   C5_decode_target_failures.2.2.2.1 (pairVal 1 1) (.int 7) (by decide),
   C5_decode_target_failures.2.2.2.2.1 .float (.int 1) false (by decide),
   C5_decode_target_failures.2.2.2.2.2 1 .float true (by decide) (by decide)⟩

/-- C8: `flatten_stages` includes base-tagged entries iff the mode permits
SMB and alternate-tagged entries iff the mode permits Lost Levels; all
base-tagged entries precede all alternate-tagged entries with each half
preserving input order (the map equation); no deduplication (counts are
preserved); `flatten(spec, Both)` has length equal to the sum of both input
lengths and `flatten(spec, BaseOnly)` contains only base-tagged keys. -/
theorem C8_flatten_stages_shape :
    (∀ (a b : List (Int × Int)) (m : SuperMarioBrosRandomMode),
      flatten_stages (a, b) m =
        (if m.has_smb then a.map (fun p => (false, p)) else []) ++
        (if m.has_lost_levels then b.map (fun p => (true, p)) else [])) ∧
    (∀ (a b : List (Int × Int)) (p : Int × Int) (m : SuperMarioBrosRandomMode),
      ((false, p) ∈ flatten_stages (a, b) m ↔ m.has_smb ∧ p ∈ a) ∧
      ((true, p) ∈ flatten_stages (a, b) m ↔ m.has_lost_levels ∧ p ∈ b)) ∧
    (∀ (a b : List (Int × Int)),
      (flatten_stages (a, b) .BOTH).length = a.length + b.length) ∧
    (∀ (a b : List (Int × Int)) (p : Int × Int),
      (flatten_stages (a, b) .BOTH).count (false, p) = a.count p ∧
      (flatten_stages (a, b) .BOTH).count (true, p) = b.count p) ∧
    (∀ (a b : List (Int × Int)) (k : StageKey),
      k ∈ flatten_stages (a, b) .SMB_ONLY → k.1 = false) := by
  have h1 : ∀ (a b : List (Int × Int)) (m : SuperMarioBrosRandomMode),
      flatten_stages (a, b) m =
        (if m.has_smb then a.map (fun p => (false, p)) else []) ++
        (if m.has_lost_levels then b.map (fun p => (true, p)) else []) := by
    intro a b m
    cases m <;> simp [flatten_stages, SuperMarioBrosRandomMode.has_smb,
      SuperMarioBrosRandomMode.has_lost_levels]
  refine ⟨h1, ?_, ?_, ?_, ?_⟩
  · intro a b p m
    rw [h1]
    cases m <;>
      simp [SuperMarioBrosRandomMode.has_smb, SuperMarioBrosRandomMode.has_lost_levels]
  · intro a b
    rw [h1]
    simp [SuperMarioBrosRandomMode.has_smb, SuperMarioBrosRandomMode.has_lost_levels]
  · intro a b p
    rw [h1]
    constructor
    · simp [SuperMarioBrosRandomMode.has_smb, SuperMarioBrosRandomMode.has_lost_levels,
        List.count_append, List.count_eq_zero_of_not_mem]
      exact count_map_tag false a p
    · simp [SuperMarioBrosRandomMode.has_smb, SuperMarioBrosRandomMode.has_lost_levels,
        List.count_append, List.count_eq_zero_of_not_mem]
      exact count_map_tag true b p
  · intro a b k hk
    rw [h1] at hk
    simp [SuperMarioBrosRandomMode.has_smb, SuperMarioBrosRandomMode.has_lost_levels] at hk
    rcases hk with ⟨p, q, h2, rfl⟩
    rfl

/-- Witness for C8's only-base-keys implication at a concrete input. -/
theorem C8_witness :
    ((false, ((1 : Int), (1 : Int))) ∈ flatten_stages ([(1, 1)], [(2, 2)]) .SMB_ONLY) ∧
    ((false, ((1 : Int), (1 : Int))) : StageKey).1 = false :=
  ⟨by decide, C8_flatten_stages_shape.2.2.2.2 [(1, 1)] [(2, 2)] (false, (1, 1)) (by decide)⟩

theorem validatePairs_ok (ps : List Val) (i j : Nat) (h : ps.all isPairOk = true) :
    validatePairs i j ps = .ok () := by
  induction ps generalizing j with
  | nil => rfl
  | cons p rest ih =>
    simp only [List.all_cons, Bool.and_eq_true] at h
    obtain ⟨hp, hrest⟩ := h
    unfold validatePairs
    unfold isPairOk at hp
    match hseq : asSeq p with
    | Option.none => rw [hseq] at hp; exact absurd hp (by simp)
    | some xs =>
      rw [hseq] at hp
      simp only [Bool.and_eq_true, decide_eq_true_eq] at hp
      obtain ⟨hlen, hints⟩ := hp
      simp [hseq, hlen, hints, ih _ hrest]

theorem validateGroups_ok (gs : List Val) (i : Nat) (h : gs.all isGroupOk = true) :
    validateGroups i gs = .ok () := by
  induction gs generalizing i with
  | nil => rfl
  | cons g rest ih =>
    simp only [List.all_cons, Bool.and_eq_true] at h
    obtain ⟨hg, hrest⟩ := h
    unfold validateGroups
    unfold isGroupOk at hg
    match hc : asCollection g with
    | Option.none => rw [hc] at hg; exact absurd hg (by simp)
    | some ps =>
      rw [hc] at hg
      simp [hc, validatePairs_ok ps i 0 hg, ih _ hrest]

/-- C9: `validate_stages` checks in order — spec is a 2-element sequence,
each element is a collection, every member is a 2-element pair, both pair
members are integers — each failing with its own error; a well-typed spec
(including `(set(), set())`) passes with no effect, and each failure message
names the offending element or pair. -/
theorem C9_validate_stages_checks :
    (∀ v : Val, wellTypedSpec v = true → validate_stages v = .ok ()) ∧
    (validate_stages (.tuple [.set [], .set []]) = .ok ()) ∧
    (∀ v : Val, asSeq v = Option.none →
      validate_stages v = .error (.typeError
        ("stages must be a list or tuple of two set, list or tuple of " ++
          "(int, int) pairs. Got type: " ++ typeName v))) ∧
    (∀ xs : List Val, xs.length ≠ 2 →
      validate_stages (.tuple xs) = .error (.valueError
        ("stages must contain exactly two elements (one per stage type). " ++
          "Got: " ++ toString xs.length ++ " elements."))) ∧
    (validate_stages (.tuple [.set [], .set [], .set []]) = .error (.valueError
      "stages must contain exactly two elements (one per stage type). Got: 3 elements.")) ∧
    (validate_stages (.tuple [.int 3, .set []]) = .error (.typeError
      "Element 0 of stages must be a set, list or tuple of int. Got type: int")) ∧
    (validate_stages (.tuple [.list [.int 5], .set []]) = .error (.typeError
      ("Element 0 in stage group 0 must be a tuple or list of two integers. " ++
        "Got: 5 of type int"))) ∧
    (validate_stages (.tuple [.list [.tuple [.int 1, .int 2, .int 3]], .set []]) =
      .error (.valueError
        ("tuple 0 in stage group 0 must contain exactly two integers. " ++
          "Got length: 3 - value: (1, 2, 3)"))) ∧
    (validate_stages (.tuple [.list [.tuple [.float, .float]], .set []]) =
      .error (.typeError
        ("Both elements of tuple 0 in stage group 0 must be integers. " ++
          "Got value: (<float>, <float>)"))) := by
  refine ⟨?_, rfl, ?_, ?_, rfl, rfl, rfl, rfl, rfl⟩
  · intro v hv
    unfold wellTypedSpec at hv
    match hseq : asSeq v with
    | Option.none => rw [hseq] at hv; exact absurd hv (by simp)
    | some xs =>
      rw [hseq] at hv
      simp only [Bool.and_eq_true, decide_eq_true_eq] at hv
      obtain ⟨hlen, hgroups⟩ := hv
      unfold validate_stages
      simp [hseq, hlen, validateGroups_ok xs 0 hgroups]
  · intro v hv
    unfold validate_stages
    simp [hv]
  · intro xs hlen
    unfold validate_stages
    simp [asSeq, hlen]

/-- Witness for C9's universally quantified parts at concrete inputs. -/
theorem C9_witness :
    validate_stages (.tuple [.list [.tuple [.int 1, .int 1]], .set []]) = .ok () ∧
    validate_stages (.int 0) = .error (.typeError
      ("stages must be a list or tuple of two set, list or tuple of " ++
        "(int, int) pairs. Got type: int")) ∧
    validate_stages (.tuple [.set []]) = .error (.valueError
      ("stages must contain exactly two elements (one per stage type). " ++
        "Got: 1 elements.")) :=
  ⟨C9_validate_stages_checks.1 (.tuple [.list [.tuple [.int 1, .int 1]], .set []]) (by decide),
   C9_validate_stages_checks.2.2.1 (.int 0) rfl,
   C9_validate_stages_checks.2.2.2.1 [.set []] (by decide)⟩

/-- C6: construction with both stage collections empty and mode `BOTH` yields
a selectable key list that is exactly the full default cross-product of both
variants — base keys for worlds 1..8 × stages 1..4 followed by alternate keys
for worlds 1..4 × stages 1..4 — with no duplicate keys. -/
theorem C6_empty_spec_both_pool (rm : RngModel) (entropy : Nat) :
    ∃ mux : Mux,
      mkMux rm "vanilla" .BOTH ([], []) entropy = .ok mux ∧
      mux.stage_pool_keys = all_smb_keys ++ all_lost_levels_keys ∧
      mux.stage_pool_keys.Nodup ∧
      (∀ (b : Bool) (w s : Int), (b, (w, s)) ∈ mux.stage_pool_keys ↔
        ((b = false ∧ (1 ≤ w ∧ w ≤ 8) ∧ (1 ≤ s ∧ s ≤ 4)) ∨
         (b = true ∧ (1 ≤ w ∧ w ≤ 4) ∧ (1 ≤ s ∧ s ≤ 4)))) := by
  refine ⟨⟨.BOTH, rm.init entropy, all_smb_keys ++ all_lost_levels_keys, initEnvKeys .BOTH,
    some (false, (1, 1)), Option.none⟩, rfl, rfl, ?_, ?_⟩
  · show (all_smb_keys ++ all_lost_levels_keys).Nodup
    decide
  · intro b w s
    show (b, (w, s)) ∈ all_smb_keys ++ all_lost_levels_keys ↔ _
    simp only [List.mem_append, mem_all_smb_keys, mem_all_lost_levels_keys]

theorem closeAllLoop_first_failure (f : StageKey → Except PyErr Unit) (e : PyErr)
    (k : StageKey) (ks₂ : List StageKey) :
    ∀ ks₁ : List StageKey, (∀ k' ∈ ks₁, f k' = .ok ()) → f k = .error e →
    closeAllLoop f (ks₁ ++ k :: ks₂) = .error e ∧
    closeInvoked f (ks₁ ++ k :: ks₂) = ks₁ ++ [k] := by
  intro ks₁
  induction ks₁ with
  | nil =>
    intro _ hk
    simp [closeAllLoop, closeInvoked, hk]
  | cons k' rest ih =>
    intro hpre hk
    have hk' : f k' = .ok () := hpre k' (by simp)
    have hrest : ∀ x ∈ rest, f x = .ok () := fun x hx => hpre x (by simp [hx])
    obtain ⟨ih1, ih2⟩ := ih hrest hk
    simp [closeAllLoop, closeInvoked, hk', ih1, ih2]

/-- C2 counterexample: a two-instance pool whose first instance fails to
close.  The claim says `close()` continues past individual per-instance close
failures (closing all remaining instances) and unsets the active instance;
here the second instance's close is never invoked and the active instance
stays set. -/
theorem C2_close_counterexample :
    (Mux.close
        ⟨.SMB_ONLY, 0, all_smb_keys, [(false, (1, 1)), (false, (1, 2))],
          some (false, (1, 1)), Option.none⟩
        (fun k => if k = (false, (1, 1)) then .error (.valueError "close failed")
                  else .ok ())).2 = .error (.valueError "close failed") ∧
    closeInvoked
        (fun k => if k = (false, (1, 1)) then .error (.valueError "close failed")
                  else .ok ())
        [(false, (1, 1)), (false, (1, 2))] ≠
      [(false, (1, 1)), (false, (1, 2))] ∧
    (Mux.close
        ⟨.SMB_ONLY, 0, all_smb_keys, [(false, (1, 1)), (false, (1, 2))],
          some (false, (1, 1)), Option.none⟩
        (fun k => if k = (false, (1, 1)) then .error (.valueError "close failed")
                  else .ok ())).1.env ≠ Option.none := by
  refine ⟨rfl, ?_, ?_⟩ <;> decide

/-- C2 as amended: `close()` on an Open multiplexer forwards close to the
pooled instances in order but stops at the first per-instance failure; that
error is surfaced (propagated, not swallowed) and the active instance remains
set; only when every pooled instance closes successfully does it unset the
active instance and release the viewer. -/
theorem C2_close_first_failure_semantics (m : Mux) (f : StageKey → Except PyErr Unit)
    (k0 : StageKey) (h : m.env = some k0) :
    ((closeAllLoop f m.envs = .ok ()) →
      m.close f = ({ m with env := Option.none, viewer := Option.none }, .ok ())) ∧
    (∀ e, closeAllLoop f m.envs = .error e → m.close f = (m, .error e)) ∧
    (∀ (e : PyErr) (ks₁ : List StageKey) (k : StageKey) (ks₂ : List StageKey),
      m.envs = ks₁ ++ k :: ks₂ → (∀ k' ∈ ks₁, f k' = .ok ()) → f k = .error e →
      m.close f = (m, .error e) ∧ closeInvoked f m.envs = ks₁ ++ [k]) := by
  refine ⟨?_, ?_, ?_⟩
  · intro hok
    unfold Mux.close
    rw [h, hok]
  · intro e herr
    unfold Mux.close
    rw [h, herr]
  · intro e ks₁ k ks₂ henvs hpre hk
    obtain ⟨h1, h2⟩ := closeAllLoop_first_failure f e k ks₂ ks₁ hpre hk
    rw [henvs]
    refine ⟨?_, h2⟩
    unfold Mux.close
    rw [h, henvs, h1]

/-- Witness for C2's amended semantics at a concrete two-instance pool. -/
theorem C2_witness :
    Mux.close
        ⟨.SMB_ONLY, 0, all_smb_keys, [(false, (2, 1)), (false, (2, 2))],
          some (false, (2, 1)), Option.none⟩
        (fun k => if k = (false, (2, 1)) then .error (.valueError "boom") else .ok ()) =
      (⟨.SMB_ONLY, 0, all_smb_keys, [(false, (2, 1)), (false, (2, 2))],
          some (false, (2, 1)), Option.none⟩, .error (.valueError "boom")) ∧
    closeInvoked
        (fun k => if k = (false, (2, 1)) then .error (.valueError "boom") else .ok ())
        [(false, (2, 1)), (false, (2, 2))] = [(false, (2, 1))] := by
  have h := (C2_close_first_failure_semantics
    ⟨.SMB_ONLY, 0, all_smb_keys, [(false, (2, 1)), (false, (2, 2))],
      some (false, (2, 1)), Option.none⟩
    (fun k => if k = (false, (2, 1)) then .error (.valueError "boom") else .ok ())
    (false, (2, 1)) rfl).2.2 (.valueError "boom") [] (false, (2, 1)) [(false, (2, 2))]
    rfl (by simp) (by decide)
  simpa using h

/-- C1 counterexample: on a Closed multiplexer (active instance unset, pool
intact, as `close()` leaves it), `reset()` does not fail with IllegalState:
it returns normally and reassigns the active instance. -/
theorem C1_reset_after_close_counterexample :
    (Mux.reset zeroRng
        ⟨.SMB_ONLY, 0, all_smb_keys, initEnvKeys .SMB_ONLY, Option.none, Option.none⟩
        Option.none Option.none).2 = .ok (false, (1, 1)) ∧
    (Mux.reset zeroRng
        ⟨.SMB_ONLY, 0, all_smb_keys, initEnvKeys .SMB_ONLY, Option.none, Option.none⟩
        Option.none Option.none).1.env = some (false, (1, 1)) := by
  constructor <;> decide

/-- C1 as amended: on a Closed multiplexer, `step`, `get_keys_to_action`,
`get_action_meanings` and `render` fail with AssertionError (IllegalState)
and a second `close` fails with ValueError (IllegalState), none of them
reassigning the active instance; but `reset` performs no closed-state check:
with a nonempty pooled key list it draws a key, reassigns the active
instance and returns normally. -/
theorem C1_closed_state_behavior (m : Mux) (rm : RngModel)
    (f : StageKey → Except PyErr Unit) (h : m.env = Option.none) :
    isAssertErrorR m.step = true ∧
    isAssertErrorR m.get_keys_to_action = true ∧
    isAssertErrorR m.get_action_meanings = true ∧
    isAssertErrorR m.render = true ∧
    m.close f = (m, .error (.valueError "env has already been closed.")) ∧
    (m.stage_pool_keys ≠ [] → (∀ k ∈ m.stage_pool_keys, k ∈ m.envs) →
      ∃ k, (m.reset rm Option.none Option.none).2 = .ok k ∧
        (m.reset rm Option.none Option.none).1.env = some k) := by
  refine ⟨?_, ?_, ?_, ?_, ?_, ?_⟩
  · unfold Mux.step
    rw [h]
    rfl
  · unfold Mux.get_keys_to_action
    rw [h]
    rfl
  · unfold Mux.get_action_meanings
    rw [h]
    rfl
  · unfold Mux.render
    rw [h]
    rfl
  · unfold Mux.close
    rw [h]
  · intro hne hmem
    have hlen : m.stage_pool_keys.length ≠ 0 := by
      simpa [List.length_eq_zero] using hne
    have hpos := Nat.pos_of_ne_zero hlen
    have hc : m.stage_pool_keys.get ⟨(rm.integers m.np_random m.stage_pool_keys.length).1,
        rm.integers_lt m.np_random m.stage_pool_keys.length hpos⟩ ∈ m.envs :=
      hmem _ (List.get_mem _ _ _)
    simp only [List.get_eq_getElem] at hc
    refine ⟨m.stage_pool_keys.get ⟨(rm.integers m.np_random m.stage_pool_keys.length).1,
        rm.integers_lt m.np_random m.stage_pool_keys.length hpos⟩, ?_, ?_⟩ <;>
      simp [Mux.reset, Mux.seed, hne, hc]

/-- Witness for C1's amended closed-state behavior at a concrete closed
multiplexer. -/
theorem C1_witness :
    isAssertErrorR
      (Mux.step ⟨.SMB_ONLY, 0, all_smb_keys, initEnvKeys .SMB_ONLY,
        Option.none, Option.none⟩) = true ∧
    isAssertErrorR
      (Mux.get_action_meanings ⟨.SMB_ONLY, 0, all_smb_keys, initEnvKeys .SMB_ONLY,
        Option.none, Option.none⟩) = true ∧
    Mux.close ⟨.SMB_ONLY, 0, all_smb_keys, initEnvKeys .SMB_ONLY, Option.none, Option.none⟩
        (fun _ => .ok ()) =
      (⟨.SMB_ONLY, 0, all_smb_keys, initEnvKeys .SMB_ONLY, Option.none, Option.none⟩,
        .error (.valueError "env has already been closed.")) ∧
    (∃ k, (Mux.reset zeroRng
        ⟨.SMB_ONLY, 0, all_smb_keys, initEnvKeys .SMB_ONLY, Option.none, Option.none⟩
        Option.none Option.none).2 = .ok k ∧
      (Mux.reset zeroRng
        ⟨.SMB_ONLY, 0, all_smb_keys, initEnvKeys .SMB_ONLY, Option.none, Option.none⟩
        Option.none Option.none).1.env = some k) := by
  have h := C1_closed_state_behavior
    ⟨.SMB_ONLY, 0, all_smb_keys, initEnvKeys .SMB_ONLY, Option.none, Option.none⟩
    zeroRng (fun _ => .ok ()) rfl
  exact ⟨h.1, h.2.2.1, h.2.2.2.2.1, h.2.2.2.2.2 (by decide) (by decide)⟩

theorem mkMux_ok_eq (rm : RngModel) (rom_mode : String)
    (random_mode : SuperMarioBrosRandomMode) (stages : StagesSpec) (e : Nat) (m : Mux)
    (h : mkMux rm rom_mode random_mode stages e = .ok m) :
    m = ⟨random_mode, rm.init e, initStagePoolKeys stages random_mode,
         initEnvKeys random_mode,
         some (initStagePoolKeys stages random_mode).headI, Option.none⟩ := by
  unfold mkMux at h
  rw [validate_specToVal] at h
  split_ifs at h
  dsimp only at h
  cases hpool : initStagePoolKeys stages random_mode with
  | nil => rw [hpool] at h; simp at h
  | cons k rest =>
    rw [hpool] at h
    dsimp only at h
    split_ifs at h
    simp only [Except.ok.injEq] at h
    rw [← h]
    simp [List.headI]

/-- C3: two identically constructed multiplexers (arbitrary construction-time
entropy), each seeded with the same value `s` and then reset `N` times with no
per-reset override, draw identical sequences of StageKeys. -/
theorem C3_seeded_reset_determinism (rm : RngModel) (rom_mode : String)
    (random_mode : SuperMarioBrosRandomMode) (stages : StagesSpec)
    (e1 e2 s N : Nat) (m1 m2 : Mux)
    (h1 : mkMux rm rom_mode random_mode stages e1 = .ok m1)
    (h2 : mkMux rm rom_mode random_mode stages e2 = .ok m2) :
    drawnKeys rm ((m1.seed rm (some s)).1) N = drawnKeys rm ((m2.seed rm (some s)).1) N := by
  rw [mkMux_ok_eq rm rom_mode random_mode stages e1 m1 h1,
      mkMux_ok_eq rm rom_mode random_mode stages e2 m2 h2]
  rfl

/-- Witness for C3: two multiplexers built with different entropy, seeded with
42, draw the same two keys. -/
theorem C3_witness :
    drawnKeys zeroRng
      ((Mux.seed zeroRng
        ⟨.SMB_ONLY, 0, all_smb_keys, initEnvKeys .SMB_ONLY, some (false, (1, 1)),
          Option.none⟩ (some 42)).1) 2 =
    drawnKeys zeroRng
      ((Mux.seed zeroRng
        ⟨.SMB_ONLY, 5, all_smb_keys, initEnvKeys .SMB_ONLY, some (false, (1, 1)),
          Option.none⟩ (some 42)).1) 2 :=
  C3_seeded_reset_determinism zeroRng "vanilla" .SMB_ONLY ([], []) 0 5 42 2
    ⟨.SMB_ONLY, 0, all_smb_keys, initEnvKeys .SMB_ONLY, some (false, (1, 1)), Option.none⟩
    ⟨.SMB_ONLY, 5, all_smb_keys, initEnvKeys .SMB_ONLY, some (false, (1, 1)), Option.none⟩
    (by decide) (by decide)

theorem flatten_stages_eq (a b : List (Int × Int)) (m : SuperMarioBrosRandomMode) :
    flatten_stages (a, b) m =
      (if m.has_smb then a.map (fun p => (false, p)) else []) ++
      (if m.has_lost_levels then b.map (fun p => (true, p)) else []) := by
  cases m <;> simp [flatten_stages, SuperMarioBrosRandomMode.has_smb,
    SuperMarioBrosRandomMode.has_lost_levels]

theorem reset_preserves_pool (rm : RngModel) (m : Mux) (sd : Option Nat)
    (opts : Option StagesSpec) :
    (Mux.reset rm m sd opts).1.envs = m.envs ∧
    (Mux.reset rm m sd opts).1.stage_pool_keys = m.stage_pool_keys := by
  unfold Mux.reset Mux.seed
  cases sd <;> cases opts <;> dsimp only <;> repeat' split <;> simp_all

theorem reset_ok_mem_envs (rm : RngModel) (m : Mux) (sd : Option Nat)
    (opts : Option StagesSpec) (k : StageKey)
    (h : (Mux.reset rm m sd opts).2 = .ok k) : k ∈ m.envs := by
  unfold Mux.reset Mux.seed at h
  cases sd <;> cases opts <;> dsimp only at h <;> repeat' split at h <;> simp_all

theorem pool_superset_of_in_range (stages : StagesSpec) (mode : SuperMarioBrosRandomMode)
    (hs1 : ∀ p ∈ stages.1, (1 ≤ p.1 ∧ p.1 ≤ 8) ∧ (1 ≤ p.2 ∧ p.2 ≤ 4))
    (hs2 : ∀ p ∈ stages.2, (1 ≤ p.1 ∧ p.1 ≤ 4) ∧ (1 ≤ p.2 ∧ p.2 ≤ 4)) :
    ∀ k ∈ initStagePoolKeys stages mode, k ∈ initEnvKeys mode := by
  obtain ⟨a, b⟩ := stages
  intro k hk
  have hsmb : ∀ p ∈ a, ((false, p) : StageKey) ∈ all_smb_keys := by
    intro p hp
    obtain ⟨⟨h1, h2⟩, h3, h4⟩ := hs1 p hp
    exact (mem_all_smb_keys false p.1 p.2).2 ⟨rfl, ⟨h1, h2⟩, h3, h4⟩
  have hll : ∀ p ∈ b, ((true, p) : StageKey) ∈ all_lost_levels_keys := by
    intro p hp
    obtain ⟨⟨h1, h2⟩, h3, h4⟩ := hs2 p hp
    exact (mem_all_lost_levels_keys true p.1 p.2).2 ⟨rfl, ⟨h1, h2⟩, h3, h4⟩
  unfold initEnvKeys
  simp only [initStagePoolKeys, flatten_stages_eq] at hk
  split_ifs at hk <;>
    simp only [List.mem_append, List.mem_map, List.not_mem_nil, or_false, false_or] at hk ⊢ <;>
    aesop

/-- C7 counterexample: a constructor spec containing the out-of-range pair
(9, 1) builds successfully (its first pair is pooled), yet the selectable key
list contains a key with no pooled instance, so EnvironmentPool is not a
superset of the SelectableKeyList from construction on. -/
theorem C7_pool_superset_counterexample :
    mkMux zeroRng "vanilla" .SMB_ONLY ([(1, 1), (9, 1)], []) 0 =
      .ok ⟨.SMB_ONLY, 0, [(false, (1, 1)), (false, (9, 1))], initEnvKeys .SMB_ONLY,
        some (false, (1, 1)), Option.none⟩ ∧
    ¬(∀ k ∈ ([(false, (1, 1)), (false, (9, 1))] : List StageKey),
        k ∈ initEnvKeys .SMB_ONLY) := by
  constructor <;> decide

/-- C7 as amended: provided every constructor spec pair lies within the
variant's default ranges (base 1..8 × 1..4, alternate 1..4 × 1..4; in
particular for empty collections), the EnvironmentPool is a superset of the
SelectableKeyList from construction on; seed and reset never modify the pool
or the key list (step and render do not touch the state at all); and every
key a reset successfully selects has a pooled instance.  A spec pair outside
the default ranges yields a selectable key with no pooled instance. -/
theorem C7_pool_superset_conditional :
    (∀ (stages : StagesSpec) (mode : SuperMarioBrosRandomMode),
      (∀ p ∈ stages.1, (1 ≤ p.1 ∧ p.1 ≤ 8) ∧ (1 ≤ p.2 ∧ p.2 ≤ 4)) →
      (∀ p ∈ stages.2, (1 ≤ p.1 ∧ p.1 ≤ 4) ∧ (1 ≤ p.2 ∧ p.2 ≤ 4)) →
      ∀ k ∈ initStagePoolKeys stages mode, k ∈ initEnvKeys mode) ∧
    (∀ (rm : RngModel) (rom_mode : String) (mode : SuperMarioBrosRandomMode)
        (stages : StagesSpec) (e : Nat) (m : Mux),
      mkMux rm rom_mode mode stages e = .ok m →
      m.envs = initEnvKeys mode ∧ m.stage_pool_keys = initStagePoolKeys stages mode) ∧
    (∀ (rm : RngModel) (m : Mux) (sd : Option Nat) (opts : Option StagesSpec),
      (Mux.reset rm m sd opts).1.envs = m.envs ∧
      (Mux.reset rm m sd opts).1.stage_pool_keys = m.stage_pool_keys ∧
      (∀ k, (Mux.reset rm m sd opts).2 = .ok k → k ∈ m.envs)) ∧
    (∀ (rm : RngModel) (m : Mux) (sd : Option Nat),
      (Mux.seed rm m sd).1.envs = m.envs ∧
      (Mux.seed rm m sd).1.stage_pool_keys = m.stage_pool_keys) := by
  refine ⟨pool_superset_of_in_range, ?_, ?_, ?_⟩
  · intro rm rom_mode mode stages e m h
    rw [mkMux_ok_eq rm rom_mode mode stages e m h]
    exact ⟨rfl, rfl⟩
  · intro rm m sd opts
    exact ⟨(reset_preserves_pool rm m sd opts).1, (reset_preserves_pool rm m sd opts).2,
      fun k hk => reset_ok_mem_envs rm m sd opts k hk⟩
  · intro rm m sd
    cases sd <;> simp [Mux.seed]

/-- Witness for C7's amended invariant at concrete inputs. -/
theorem C7_witness :
    ((false, ((1 : Int), (1 : Int))) ∈ initEnvKeys .SMB_ONLY) ∧
    (Mux.reset zeroRng
      ⟨.SMB_ONLY, 0, all_smb_keys, initEnvKeys .SMB_ONLY, some (false, (1, 1)),
        Option.none⟩ Option.none Option.none).1.envs = initEnvKeys .SMB_ONLY := by
  constructor
  · exact C7_pool_superset_conditional.1 ([(1, 1)], []) .SMB_ONLY (by decide) (by decide)
      (false, (1, 1)) (by decide)
  · exact (C7_pool_superset_conditional.2.2.1 zeroRng
      ⟨.SMB_ONLY, 0, all_smb_keys, initEnvKeys .SMB_ONLY, some (false, (1, 1)),
        Option.none⟩ Option.none Option.none).1

theorem reset_singleton_unpooled (rm : RngModel) (m : Mux) (k : StageKey)
    (hpool : m.stage_pool_keys = [k]) (hk : k ∉ m.envs) :
    isKeyErrorR (Mux.reset rm m Option.none Option.none).2 = true := by
  obtain ⟨rmode, np, pool, envs, env, vw⟩ := m
  simp only at hpool hk
  subst hpool
  have h0 : (rm.integers np 1).1 = 0 := by
    have := rm.integers_lt np 1 (by omega)
    omega
  unfold Mux.reset Mux.seed
  simp [h0, hk, isKeyErrorR]

/-- C10 (implicit): for every variant the mode permits, construction pools
the full default cross-product regardless of the spec, so the
EnvironmentPool's key set depends only on the mode; a spec whose integer
pairs lie outside the default ranges passes validation, its keys enter the
SelectableKeyList but not the pool, and selecting such a key fails with a
KeyError. -/
theorem C10_env_keys_mode_only :
    (∀ a b : List (Int × Int), validate_stages (specToVal (a, b)) = .ok ()) ∧
    (∀ (rm : RngModel) (rom_mode : String) (mode : SuperMarioBrosRandomMode)
        (stages stages' : StagesSpec) (e e' : Nat) (m m' : Mux),
      mkMux rm rom_mode mode stages e = .ok m →
      mkMux rm rom_mode mode stages' e' = .ok m' →
      m.envs = initEnvKeys mode ∧ m.envs = m'.envs) ∧
    (∀ (p : Int × Int) (a b : List (Int × Int)) (mode : SuperMarioBrosRandomMode),
      mode.has_smb = true → p ∈ a →
      ((false, p) ∈ initStagePoolKeys (a, b) mode ∧
       (¬((1 ≤ p.1 ∧ p.1 ≤ 8) ∧ (1 ≤ p.2 ∧ p.2 ≤ 4)) →
         (false, p) ∉ initEnvKeys mode))) ∧
    (∀ (rm : RngModel) (m : Mux) (k : StageKey),
      m.stage_pool_keys = [k] → k ∉ m.envs →
      isKeyErrorR (Mux.reset rm m Option.none Option.none).2 = true) := by
  refine ⟨fun a b => validate_specToVal (a, b), ?_, ?_, reset_singleton_unpooled⟩
  · intro rm rom_mode mode stages stages' e e' m m' h h'
    rw [mkMux_ok_eq rm rom_mode mode stages e m h,
        mkMux_ok_eq rm rom_mode mode stages' e' m' h']
    exact ⟨rfl, rfl⟩
  · intro p a b mode hsmb hp
    constructor
    · have hflat : ((false, p) : StageKey) ∈ flatten_stages (a, b) mode := by
        rw [flatten_stages_eq]
        rw [List.mem_append]
        left
        rw [hsmb]
        simp only [if_true, List.mem_map]
        exact ⟨p, hp, rfl⟩
      simp only [initStagePoolKeys]
      split_ifs <;> simp [List.mem_append, hflat]
    · intro hrange hmem
      unfold initEnvKeys at hmem
      rw [List.mem_append] at hmem
      rcases hmem with hmem | hmem
      · rw [hsmb] at hmem
        simp only [if_true] at hmem
        obtain ⟨_, hw, hs⟩ := (mem_all_smb_keys false p.1 p.2).1 hmem
        exact hrange ⟨hw, hs⟩
      · split_ifs at hmem
        · have := ((mem_all_lost_levels_keys false p.1 p.2).1 hmem).1
          simp at this
        · simp at hmem

/-- Witness for C10 at concrete out-of-range input (9, 9). -/
theorem C10_witness :
    validate_stages (specToVal ([(9, 9)], [])) = .ok () ∧
    ((false, ((9 : Int), (9 : Int))) ∈ initStagePoolKeys ([(9, 9)], []) .SMB_ONLY ∧
      (false, ((9 : Int), (9 : Int))) ∉ initEnvKeys .SMB_ONLY) ∧
    isKeyErrorR (Mux.reset zeroRng
      ⟨.SMB_ONLY, 0, [(false, (9, 9))], initEnvKeys .SMB_ONLY, some (false, (1, 1)),
        Option.none⟩ Option.none Option.none).2 = true := by
  refine ⟨C10_env_keys_mode_only.1 [(9, 9)] [], ?_, ?_⟩
  · have h := C10_env_keys_mode_only.2.2.1 (9, 9) [(9, 9)] [] .SMB_ONLY (by decide)
      (by decide)
    exact ⟨h.1, h.2 (by decide)⟩
  · exact C10_env_keys_mode_only.2.2.2 zeroRng
      ⟨.SMB_ONLY, 0, [(false, (9, 9))], initEnvKeys .SMB_ONLY, some (false, (1, 1)),
        Option.none⟩ (false, (9, 9)) rfl (by decide)
